import Mathlib

/-!
Verification development for the sandwine repository.

This file gives a shallow embedding, in Lean 4, of the parts of the
sandwine source that the specification's claims are about:

* `src/sandwine/_x11.py` — display-number allocation (`X11Display.find_unused`)
  and the xpra ("handshake") backend context manager (`XpraContext`);
* `src/sandwine/_pty.py` — the exit-code translation at the end of
  `pty_spawn_argv`;
* `src/sandwine/_main.py` — `single_trailing_sep`, `parse_path_colon_access`,
  `MountTask`/`MountMode`/`AccessMode`, the whole of `create_bwrap_argv`
  (mount-plan construction, sorting, mount emission, `${PATH}` filtering,
  environment emission, payload wrapping) and the control flow of `main`.

Python strings are modelled as Lean `String` and operations on them are
implemented over `String.data` (a `List Char`) by structural recursion, so
every definition evaluates inside the kernel.  Python's string ordering
(code-point lexicographic, byte order for the ASCII paths involved here) is
`str_le` below.  `os.sep` is `'/'` and `os.pathsep` is `':'` (POSIX, the only
platform the program supports).  Host state that the code probes
(`os.environ`, `os.path.exists`, `os.path.realpath`, `os.getuid`,
`os.path.expanduser('~')`) is passed explicitly as a `Host` record of oracles.
-/

namespace Sandwine

/-! ### Generic list sorting (model of Python's stable `sorted`)

Python's `sorted(xs, key=...)` is a stable sort.  A stable sort's output is
uniquely determined by the comparison and the input order, so any stable
sorting algorithm is an extensionally faithful model; we use insertion sort,
which the kernel can evaluate. -/

def ordered_insert {α : Type} (le : α → α → Bool) (x : α) : List α → List α
  | [] => [x]
  | y :: ys => if le x y then x :: y :: ys else y :: ordered_insert le x ys

def insertion_sort {α : Type} (le : α → α → Bool) : List α → List α
  | [] => []
  | x :: xs => ordered_insert le x (insertion_sort le xs)

/-! ### String primitives (models of the Python string operations used) -/

/-- Code-point lexicographic comparison of character lists; this is how
Python compares `str` values. -/
def chars_le : List Char → List Char → Bool
  | [], _ => true
  | _ :: _, [] => false
  | a :: as, b :: bs => if a < b then true else if b < a then false else chars_le as bs

/-- Python `a <= b` on strings. -/
def str_le (a b : String) : Bool := chars_le a.data b.data

/-- Python `s.startswith(p)`. -/
def py_startswith (s p : String) : Bool := List.isPrefixOf p.data s.data

/-- Python `s.rstrip(os.sep)` with `os.sep = '/'`. -/
def py_rstrip_slash (s : String) : String :=
  String.mk ((s.data.reverse.dropWhile (fun c => c = '/')).reverse)

/-- Python `s.split(c)` for a one-character separator (on the character
list). Always returns at least one piece. -/
def split_chars (c : Char) : List Char → List (List Char)
  | [] => [[]]
  | x :: xs =>
    let r := split_chars c xs
    if x = c then [] :: r
    else
      match r with
      | [] => [[x]]
      | y :: ys => (x :: y) :: ys

/-- Python `s.split(c)` for a one-character separator. -/
def py_split (c : Char) (s : String) : List String := (split_chars c s.data).map String.mk

/-- Python `sep.join(pieces)`. -/
def py_join (sep : String) : List String → String
  | [] => ""
  | [x] => x
  | x :: y :: ys => x ++ sep ++ py_join sep (y :: ys)

/-- Python `c in s` for a single character `c`. -/
def py_contains (s : String) (c : Char) : Bool := s.data.contains c

/-! ### `src/sandwine/_x11.py` — `X11Display.find_unused`

```python
@staticmethod
def find_unused(minimum: int = 0) -> int:
    used_displays = {int(os.path.basename(p)[1:]) for p in glob.glob("/tmp/.X11-unix/X*")}
    candidate_displays = set(list(range(len(used_displays))) + [len(used_displays)] + [minimum])
    return sorted(candidate_displays - used_displays)[-1]
```

The `glob` scan of `/tmp/.X11-unix` is I/O; its result — the set of occupied
display numbers — is the `used_displays` argument.  `set(list(range(n)) + [n]
+ [minimum])` is `{0, …, n} ∪ {minimum}` for `n = len(used_displays)`; the
set difference and ascending sort are realised on an enumeration of that set
(`List.range (n+1) ++ [minimum]`, filtered by non-membership in
`used_displays`; a duplicate when `minimum ≤ n` does not change the sorted
list's last element).  `sorted(s)[-1]` raises `IndexError` on an empty set,
modelled by `Option` via `getLast?`. -/

def nat_le (a b : ℕ) : Bool := decide (a ≤ b)

def find_unused (used_displays : Finset ℕ) (minimum : ℕ) : Option ℕ :=
  (insertion_sort nat_le
    ((List.range (used_displays.card + 1) ++ [minimum]).filter
      (fun c => decide (c ∉ used_displays)))).getLast?

/-! ### `src/sandwine/_pty.py` — exit-code translation in `pty_spawn_argv`

```python
if p.signalstatus is not None:
    exit_code = 128 + p.signalstatus
else:
    exit_code = p.exitstatus
return exit_code
```

After `p.wait()`, `pexpect` sets `signalstatus` to the number of the signal
that killed the child (leaving `exitstatus` as `None`), or leaves
`signalstatus` as `None` for a normal exit (with `exitstatus` the child's
exit status). -/

def pty_exit_code (signalstatus : Option ℕ) (exitstatus : Option ℕ) : Option ℕ :=
  match signalstatus with
  | some n => some (128 + n)
  | none => exitstatus

/-! ### `src/sandwine/_x11.py` — `XpraContext.__enter__` / `__exit__`

`XpraContext.__enter__` (lines 223–292) performs, in order: create the
private temporary directory (`tempfile.TemporaryDirectory()` followed by
`self._tempdir.__enter__()`), write the Xvfb wrapper script, `Popen` the
xpra server, wait for the server's Unix socket file, poll `xpra id` until
connectable, `Popen` the xpra client, and wait for the X display socket.
The only exception handler is `except FileNotFoundError` around the two
`Popen` calls and the waits between them, which logs and calls
`sys.exit(127)` (raising `SystemExit`); every other exception (an `OSError`
from the script write, a `KeyboardInterrupt` during one of the unbounded
polls, …) propagates unchanged.  There is no `try`/`finally` around the body:
no path in `__enter__` removes the temporary directory.  `__exit__`
(lines 294–307) signals the client and server processes with SIGTERM, waits
for them, and only then removes the temporary directory via
`self._tempdir.__exit__(None, None, None)`.  Python's `with` statement does
not call `__exit__` when `__enter__` raises.

The model records the sequence of effects (`XpraAction`) that `__enter__`
performs for each possible failure point, together with the outcome seen by
the caller. -/

inductive XpraAction
  | createTempdir
  | writeWrapperScript
  | popenServer
  | waitSocketFile
  | waitConnectable
  | popenClient
  | waitDisplaySocket
  | signalClient
  | signalServer
  | removeTempdir
deriving DecidableEq, Repr

/-- Where, if anywhere, backend startup throws inside
`XpraContext.__enter__` after the temporary directory has been created. -/
inductive XpraFail
  | noFail
  | atWriteScript
  | serverNotFound
  | atWaitSocket
  | atWaitConnectable
  | clientNotFound
  | atWaitDisplay
deriving DecidableEq, Repr

/-- What the caller of `__enter__` observes. -/
inductive XpraOutcome
  | ok
  | systemExit (code : ℕ)
  | raised
deriving DecidableEq, Repr

/-- Effect trace and outcome of `XpraContext.__enter__` for each failure
point.  A `Popen` that raises `FileNotFoundError` is caught and converted to
`sys.exit(127)`; all other failures propagate as raised exceptions. -/
def xpra_enter : XpraFail → List XpraAction × XpraOutcome
  | .noFail =>
    ([.createTempdir, .writeWrapperScript, .popenServer, .waitSocketFile,
      .waitConnectable, .popenClient, .waitDisplaySocket], .ok)
  | .atWriteScript => ([.createTempdir, .writeWrapperScript], .raised)
  | .serverNotFound =>
    ([.createTempdir, .writeWrapperScript, .popenServer], .systemExit 127)
  | .atWaitSocket =>
    ([.createTempdir, .writeWrapperScript, .popenServer, .waitSocketFile], .raised)
  | .atWaitConnectable =>
    ([.createTempdir, .writeWrapperScript, .popenServer, .waitSocketFile,
      .waitConnectable], .raised)
  | .clientNotFound =>
    ([.createTempdir, .writeWrapperScript, .popenServer, .waitSocketFile,
      .waitConnectable, .popenClient], .systemExit 127)
  | .atWaitDisplay =>
    ([.createTempdir, .writeWrapperScript, .popenServer, .waitSocketFile,
      .waitConnectable, .popenClient, .waitDisplaySocket], .raised)

/-- Effect trace of `XpraContext.__exit__` after a successful `__enter__`:
signal and wait for the client and server, then remove the temporary
directory. -/
def xpra_exit : List XpraAction :=
  [.signalClient, .signalServer, .removeTempdir]

/-! ### `src/sandwine/_main.py` — control flow of `main` (lines 486–523)

```python
def main():
    exit_code = 0
    try:
        ...
        with x11context:
            try:
                exit_code = subprocess.call(argv)
            except FileNotFoundError:
                ...
                exit_code = 127
    except KeyboardInterrupt:
        exit_code = 128 + signal.SIGINT
    sys.exit(exit_code)
```

`KeyboardInterrupt` is caught in exactly one place, the top-level `except`;
the inner handler catches only `FileNotFoundError`.  The `with` statement
runs `X11Context.__exit__` whenever its body exits — normally or by
exception — but not when `X11Context.__enter__` itself raises.  The model
enumerates where a keyboard interrupt can strike and what the sandboxed
child does, and records the display-context events together with the final
process exit code. -/

inductive MainEvent
  | x11EnterBegun
  | x11Entered
  | x11Teardown
deriving DecidableEq, Repr

/-- What happens inside the `with` body (the `subprocess.call` and its
`FileNotFoundError` handler). -/
inductive BodyResult
  | exits (code : ℕ)
  | fileNotFound
  | kbInterrupt
deriving DecidableEq, Repr

structure MainScenario where
  /-- a keyboard interrupt strikes before the `with x11context` statement -/
  interruptBeforeWith : Bool
  /-- a keyboard interrupt strikes inside `X11Context.__enter__` -/
  interruptDuringEnter : Bool
  /-- outcome of the `with` body when it is reached -/
  body : BodyResult
deriving DecidableEq, Repr

/-- `signal.SIGINT` on Linux. -/
def SIGINT : ℕ := 2

/-- Display-context events and final exit code of `main` for a scenario
(display enabled, so `x11context` is a real `X11Context`). -/
def run_main (s : MainScenario) : List MainEvent × ℕ :=
  if s.interruptBeforeWith then ([], 128 + SIGINT)
  else if s.interruptDuringEnter then ([.x11EnterBegun], 128 + SIGINT)
  else
    match s.body with
    | .exits code => ([.x11EnterBegun, .x11Entered, .x11Teardown], code)
    | .fileNotFound => ([.x11EnterBegun, .x11Entered, .x11Teardown], 127)
    | .kbInterrupt => ([.x11EnterBegun, .x11Entered, .x11Teardown], 128 + SIGINT)

/-! ### `src/sandwine/_main.py` — data model -/

/-- `class AccessMode(Enum)` (line 42). -/
inductive AccessMode
  | READ_ONLY
  | READ_WRITE
deriving DecidableEq, Repr

/-- `class X11Mode(Enum)` (line 47, the `_main.py` variant). -/
inductive X11Mode
  | AUTO
  | HOST
  | NXAGENT
  | XEPHYR
  | XNEST
  | XVFB
  | NONE
deriving DecidableEq, Repr

/-- `class MountMode(Enum)` (line 61). -/
inductive MountMode
  | DEVTMPFS
  | BIND_RO
  | BIND_RW
  | BIND_DEV
  | TMPFS
  | PROC
deriving DecidableEq, Repr

/-- `@dataclass class MountTask` (line 296).  In the Python dataclass,
`source` defaults to `None` and `required` to `True`; the Lean embedding
passes all four fields explicitly. -/
structure MountTask where
  mode : MountMode
  target : String
  source : Option String
  required : Bool
deriving DecidableEq, Repr

/-- The configuration handed to `create_bwrap_argv`: the argparse result
(`config.x11` defaulted to `X11Mode.NONE`, `extra_binds` from `--pass`,
etc.) plus `x11_display_number`, which `main` sets whenever
`config.x11 != X11Mode.NONE` before calling `create_bwrap_argv`. -/
structure Config where
  x11 : X11Mode
  x11_display_number : ℕ
  network : Bool
  pulseaudio : Bool
  dotwine : Option String
  extra_binds : List String
  configure : Bool
  with_wine : Bool
  second_try : Bool
  argv_0 : Option String
  argv_1_plus : List String

/-- The ambient host state probed by `create_bwrap_argv`:
`home` is `os.path.expanduser('~')`, `uid` is `os.getuid()`, `env` is
`os.environ`, `pathExists` is `os.path.exists`, and `realpath` is
`os.path.realpath`. -/
structure Host where
  home : String
  uid : ℕ
  env : String → Option String
  pathExists : String → Bool
  realpath : String → String

/-- How a failed `create_bwrap_argv` run terminates the process:
`missingRequiredPath` is the explicit `sys.exit(1)` at line 418;
`valueError` is an uncaught `ValueError` from `parse_path_colon_access`;
`keyError` is an uncaught `KeyError` from `os.environ['PATH']`.  An
uncaught exception also makes the interpreter exit with status 1. -/
inductive BwrapError
  | missingRequiredPath (path : String)
  | valueError (msg : String)
  | keyError (key : String)
deriving DecidableEq, Repr

/-- Process exit status produced by each `BwrapError`. -/
def BwrapError.exit_status : BwrapError → ℕ
  | .missingRequiredPath _ => 1
  | .valueError _ => 1
  | .keyError _ => 1

/-! ### `src/sandwine/_main.py` — helpers -/

/-- `single_trailing_sep` (line 278):
`return path.rstrip(os.sep) + os.sep`. -/
def single_trailing_sep (path : String) : String :=
  py_rstrip_slash path ++ "/"

/-- `parse_path_colon_access` (line 282): split at the last `':'`
(`candidate.rsplit(':', 1)`) and map `"ro"`/`"rw"`; anything else raises
`ValueError`.  `rsplit(':', 1)` is realised as: split on `':'` and rejoin
all pieces but the last. -/
def parse_path_colon_access (candidate : String) :
    Except String (String × AccessMode) :=
  let error_message :=
    "Value " ++ candidate ++ " does not match pattern \"PATH:\x7bro,rw\x7d\"."
  if py_contains candidate ':' then
    let pieces := py_split ':' candidate
    let path := py_join ":" pieces.dropLast
    let access_mode_candidate := pieces.getLastD ""
    if access_mode_candidate = "ro" then .ok (path, .READ_ONLY)
    else if access_mode_candidate = "rw" then .ok (path, .READ_WRITE)
    else .error error_message
  else .error error_message

/-- `X11Context.get_unix_socket_for` (line 197). -/
def get_unix_socket_for (display : ℕ) : String :=
  "/tmp/.X11-unix/X" ++ toString display

/-- The `x11_unix_socket` local of `create_bwrap_argv` (line 344), defined
only when `config.x11 != X11Mode.NONE`. -/
def x11_socket_of (config : Config) : Option String :=
  if config.x11 = X11Mode.NONE then none
  else some (get_unix_socket_for config.x11_display_number)

/-- `keep_missing_target` (lines 411–412): the X11 Unix socket will only
show up later, so its bind task survives the existence check. -/
def keep_missing_target (x11_socket : Option String) (target : String) : Bool :=
  match x11_socket with
  | some s => target = s
  | none => false

/-- Mount-task accumulation for `--pass` (lines 374–381). -/
def parse_extra_binds : List String → Except String (List MountTask)
  | [] => .ok []
  | bind :: rest =>
    match parse_path_colon_access bind with
    | .error msg => .error msg
    | .ok pa =>
      match parse_extra_binds rest with
      | .error msg => .error msg
      | .ok tasks =>
        let mount_mode := match pa.2 with
          | .READ_WRITE => MountMode.BIND_RW
          | .READ_ONLY => MountMode.BIND_RO
        .ok (⟨mount_mode, pa.1, none, true⟩ :: tasks)

/-- Result of the task-accumulation phase of `create_bwrap_argv`
(lines 305–390): mount tasks, environment tasks (name ↦ explicit value, or
`none` for "inherit from host"), namespace-unshare flags and the
`run_winecfg` flag.  `env_tasks` keeps the Python dict's insertion order;
all keys are distinct. -/
structure PlanState where
  mount_tasks : List MountTask
  env_tasks : List (String × Option String)
  unshare_args : List String
  run_winecfg : Bool

/-- The pure part of lines 305–390 of `create_bwrap_argv`, once the two
fallible `parse_path_colon_access` uses have been resolved:
`dotwine_parsed` is the parse of `config.dotwine` (when given) and
`extra_tasks` the tasks from `--pass`.  `os.makedirs` of a missing dotwine
source (line 364) is a host side effect; its only influence on the compiled
argv is forcing `run_winecfg`, which is modelled. -/
def build_plan_pure (host : Host) (config : Config)
    (dotwine_parsed : Option (String × AccessMode)) (extra_tasks : List MountTask) :
    PlanState :=
  let my_home := host.realpath host.home
  let mount_tasks : List MountTask := [
    ⟨.TMPFS, "/", none, true⟩,
    ⟨.BIND_RO, "/bin", none, true⟩,
    ⟨.DEVTMPFS, "/dev", none, true⟩,
    ⟨.BIND_DEV, "/dev/dri", none, true⟩,
    ⟨.BIND_RO, "/etc", none, true⟩,
    ⟨.BIND_RO, "/lib", none, true⟩,
    ⟨.BIND_RO, "/lib32", none, false⟩,
    ⟨.BIND_RO, "/lib64", none, true⟩,
    ⟨.PROC, "/proc", none, true⟩,
    ⟨.BIND_RO, "/sys", none, true⟩,
    ⟨.TMPFS, "/tmp", none, true⟩,
    ⟨.BIND_RO, "/usr", none, true⟩,
    ⟨.TMPFS, my_home, none, true⟩]
  let env_tasks : List (String × Option String) :=
    [("HOME", none), ("TERM", none), ("USER", none), ("WINEDEBUG", none)]
  let unshare_args := ["--unshare-all"]
  -- Networking (lines 330–334)
  let unshare_args := if config.network then unshare_args ++ ["--share-net"] else unshare_args
  let mount_tasks := if config.network then
      mount_tasks ++ [⟨.BIND_RO, "/run/NetworkManager/resolv.conf", none, false⟩]
    else mount_tasks
  -- Sound (lines 337–340)
  let pulseaudio_socket := "/run/user/" ++ toString host.uid ++ "/pulse/native"
  let env_tasks := if config.pulseaudio then
      env_tasks ++ [("PULSE_SERVER", some ("unix:" ++ pulseaudio_socket))]
    else env_tasks
  let mount_tasks := if config.pulseaudio then
      mount_tasks ++ [⟨.BIND_RW, pulseaudio_socket, none, true⟩]
    else mount_tasks
  -- X11 (lines 343–346)
  let mount_tasks := match x11_socket_of config with
    | some s => mount_tasks ++ [⟨.BIND_RW, s, none, true⟩]
    | none => mount_tasks
  let env_tasks := if config.x11 ≠ X11Mode.NONE then
      env_tasks ++ [("DISPLAY", some (":" ++ toString config.x11_display_number))]
    else env_tasks
  -- Wine (lines 349–371)
  let run_winecfg := (config.x11 ≠ X11Mode.NONE) &&
    (config.configure || config.dotwine.isNone)
  let dotwine_target_path := host.home ++ "/.wine"
  let dotwine_step : List MountTask × Bool := match dotwine_parsed with
    | some pa =>
      let mount_mode := match pa.2 with
        | .READ_WRITE => MountMode.BIND_RW
        | .READ_ONLY => MountMode.BIND_RO
      ([⟨mount_mode, dotwine_target_path, some pa.1, true⟩],
       if host.pathExists pa.1 then run_winecfg else true)
    | none => ([⟨.TMPFS, dotwine_target_path, none, true⟩], run_winecfg)
  let mount_tasks := mount_tasks ++ dotwine_step.1
  let run_winecfg := dotwine_step.2
  -- Extra binds (lines 374–381)
  let mount_tasks := mount_tasks ++ extra_tasks
  -- Program (lines 384–390)
  let mount_tasks := match config.argv_0 with
    | some argv_0 =>
      if py_contains argv_0 '/' then
        let real_argv_0 := host.realpath argv_0
        mount_tasks ++ [
          ⟨.BIND_RO, real_argv_0, none, false⟩,
          ⟨.BIND_RO, real_argv_0 ++ ".exe", none, false⟩,
          ⟨.BIND_RO, real_argv_0 ++ ".EXE", none, false⟩]
      else mount_tasks
    | none => mount_tasks
  ⟨mount_tasks, env_tasks, unshare_args, run_winecfg⟩

/-- The `parse_path_colon_access` use for `--dotwine` (line 353). -/
def dotwine_parse (config : Config) : Except BwrapError (Option (String × AccessMode)) :=
  match config.dotwine with
  | some dw =>
    match parse_path_colon_access dw with
    | .ok pa => .ok (some pa)
    | .error msg => .error (.valueError msg)
  | none => .ok none

/-- The `parse_path_colon_access` uses for `--pass` (line 375). -/
def extra_parse (config : Config) : Except BwrapError (List MountTask) :=
  match parse_extra_binds config.extra_binds with
  | .ok tasks => .ok tasks
  | .error msg => .error (.valueError msg)

/-- Lines 305–390 of `create_bwrap_argv`: resolve the two fallible parses
(in source order — `--dotwine` first, then each `--pass` value) and build
the plan state. -/
def build_plan (host : Host) (config : Config) : Except BwrapError PlanState :=
  match dotwine_parse config with
  | .error e => .error e
  | .ok dotwine_parsed =>
    match extra_parse config with
    | .error e => .error e
    | .ok extra_tasks => .ok (build_plan_pure host config dotwine_parsed extra_tasks)

/-- `sorted(mount_tasks, key=attrgetter('target'))` (line 396): stable
ascending sort by the `target` string. -/
def by_target (a b : MountTask) : Bool := str_le a.target b.target

def sort_mount_tasks (l : List MountTask) : List MountTask :=
  insertion_sort by_target l

/-- One iteration of the mount-emission loop (lines 399–433), giving either
an argv group, `none` when an optional task is dropped, or the fatal
missing-required-path error.  A bind task's `source` defaults to its
`target` (lines 407–408); the existence probe is on the *target* path
(line 414), skipped for the reserved X11 socket path. -/
def emit_mount_task (pathExists : String → Bool) (x11_socket : Option String)
    (mount_task : MountTask) : Except BwrapError (Option (List String)) :=
  if mount_task.mode = .TMPFS then .ok (some ["--tmpfs", mount_task.target])
  else if mount_task.mode = .DEVTMPFS then .ok (some ["--dev", mount_task.target])
  else if mount_task.mode = .PROC then .ok (some ["--proc", mount_task.target])
  else
    -- BIND_RO / BIND_RW / BIND_DEV
    let source := mount_task.source.getD mount_task.target
    if !pathExists mount_task.target &&
        !keep_missing_target x11_socket mount_task.target then
      if mount_task.required then .error (.missingRequiredPath mount_task.target)
      else .ok none
    else if mount_task.mode = .BIND_RO then
      .ok (some ["--ro-bind", source, mount_task.target])
    else if mount_task.mode = .BIND_RW then
      .ok (some ["--bind", source, mount_task.target])
    else
      .ok (some ["--dev-bind", source, mount_task.target])

/-- The whole mount-emission loop (lines 399–433) over the sorted task
list. -/
def emit_mount_tasks (pathExists : String → Bool) (x11_socket : Option String) :
    List MountTask → Except BwrapError (List (List String))
  | [] => .ok []
  | mount_task :: rest =>
    match emit_mount_task pathExists x11_socket mount_task with
    | .error e => .error e
    | .ok group? =>
      match emit_mount_tasks pathExists x11_socket rest with
      | .error e => .error e
      | .ok groups =>
        match group? with
        | some group => .ok (group :: groups)
        | none => .ok groups

/-- `mount_task.mode in (MountMode.BIND_RO, MountMode.BIND_RW,
MountMode.BIND_DEV)` (lines 406 and 443). -/
def is_bind_mode : MountMode → Bool
  | .BIND_RO => true
  | .BIND_RW => true
  | .BIND_DEV => true
  | _ => false

/-- The inner loop of the `${PATH}` filter (lines 440–445): scan the sorted
tasks in reverse; a candidate is appended exactly when some task matches it
by `single_trailing_sep`-guarded string comparison *and* is a bind/device
task (a matching non-bind task does not break the loop). -/
def path_matches (sorted_mount_tasks : List MountTask) (candidate_path : String) : Bool :=
  sorted_mount_tasks.reverse.any (fun mount_task =>
    py_startswith (single_trailing_sep candidate_path)
        (single_trailing_sep mount_task.target) &&
      is_bind_mode mount_task.mode)

/-- The `${PATH}` filter (lines 436–449): resolve each candidate with
`os.path.realpath` and keep it when `path_matches`. -/
def filter_paths (realpath : String → String) (sorted_mount_tasks : List MountTask)
    (candidate_paths : List String) : List String :=
  candidate_paths.filterMap (fun candidate_path =>
    let candidate_path := realpath candidate_path
    if path_matches sorted_mount_tasks candidate_path then some candidate_path
    else none)

/-- `sorted(env_tasks.items(), key=itemgetter(0))` (line 453). -/
def by_key (a b : String × Option String) : Bool := str_le a.1 b.1

def sort_env_tasks (l : List (String × Option String)) : List (String × Option String) :=
  insertion_sort by_key l

/-- The environment-emission loop (lines 453–458): an explicit value is
written as-is; `none` means "look the variable up in `os.environ`, and skip
the task when it is absent there". -/
def emit_env (hostEnv : String → Option String) :
    List (String × Option String) → List (List String)
  | [] => []
  | (env_var, env_value) :: rest =>
    let emitted := match env_value with
      | some v => some ["--setenv", env_var, v]
      | none => match hostEnv env_var with
        | some v => some ["--setenv", env_var, v]
        | none => none
    match emitted with
    | some g => g :: emit_env hostEnv rest
    | none => emit_env hostEnv rest

/-- The wrapper stages and payload (lines 460–482). -/
def tail_groups (config : Config) (run_winecfg : Bool) : List (List String) :=
  (if config.with_wine then
    [["sh", "-c",
      "wineserver -p0 && \"$0\" \"$@\" ; ret=$? ; wineserver -k ; exit ${ret}"]]
   else []) ++
  (if run_winecfg && config.with_wine then
    [["sh", "-c", "winecfg && exec \"$0\" \"$@\""]]
   else []) ++
  (if config.second_try then
    [["sh", "-c", "\"$0\" \"$@\" || exec \"$0\" \"$@\""]]
   else []) ++
  [match config.argv_0 with
   | some argv_0 =>
     if config.with_wine then "wine" :: argv_0 :: config.argv_1_plus
     else argv_0 :: config.argv_1_plus
   | none => ["true"]]

/-- `os.environ['PATH']` (line 436); raises `KeyError` when absent. -/
def environ_path (host : Host) : Except BwrapError String :=
  match host.env "PATH" with
  | some p => .ok p
  | none => .error (.keyError "PATH")

/-- Pure assembly of the final argv group list, given the plan state, the
emitted mount groups and the value of `${PATH}`. -/
def assemble_argv (host : Host) (config : Config) (st : PlanState)
    (mount_groups : List (List String)) (path_value : String) :
    List (List String) :=
  let sorted_mount_tasks := sort_mount_tasks st.mount_tasks
  let candidate_paths := py_split ':' path_value
  let available_paths := filter_paths host.realpath sorted_mount_tasks candidate_paths
  let env_tasks := st.env_tasks ++ [("PATH", some (py_join ":" available_paths))]
  let env_groups := emit_env host.env (sort_env_tasks env_tasks)
  [["bwrap"], ["--new-session"], st.unshare_args] ++
    mount_groups ++
    [["--clearenv"]] ++ env_groups ++ [["--"]] ++
    tail_groups config st.run_winecfg

/-- `create_bwrap_argv` (lines 304–483), as the list of `ArgvBuilder`
groups it accumulates (`argv.add(...)` calls in program order), or the way
the process dies.  Flattening the groups (`iter_flat`) gives the argv that
is executed. -/
def create_bwrap_argv (host : Host) (config : Config) :
    Except BwrapError (List (List String)) :=
  match build_plan host config with
  | .error e => .error e
  | .ok st =>
    match emit_mount_tasks host.pathExists (x11_socket_of config)
        (sort_mount_tasks st.mount_tasks) with
    | .error e => .error e
    | .ok mount_groups =>
      match environ_path host with
      | .error e => .error e
      | .ok path_value => .ok (assemble_argv host config st mount_groups path_value)

/-- The mount-emission stage of `create_bwrap_argv` in isolation: the argv
groups produced by the loop at lines 399–433 from the sorted mount tasks of
the plan. -/
def mount_groups_of (host : Host) (config : Config) :
    Except BwrapError (List (List String)) :=
  match build_plan host config with
  | .error e => .error e
  | .ok st =>
    emit_mount_tasks host.pathExists (x11_socket_of config)
      (sort_mount_tasks st.mount_tasks)

/-- The mount-operation section of a compiled argv group list: everything
after the three fixed head groups and before the `--clearenv` marker.  Each
mount group carries its target path as its last element. -/
def mount_section (groups : List (List String)) : List (List String) :=
  (groups.drop 3).takeWhile (fun g => g != ["--clearenv"])

/-- The targets of a list of mount groups (the last element of each
group). -/
def mount_targets (groups : List (List String)) : List String :=
  groups.map (fun g => g.getLastD "")

/-- The environment section of a compiled argv group list: the groups
between the `--clearenv` marker and the `--` separator. -/
def env_section (groups : List (List String)) : List (List String) :=
  (((groups.dropWhile (fun g => g != ["--clearenv"])).drop 1).takeWhile
    (fun g => g != ["--"]))

/-- The variable names of a list of `--setenv` groups (the second element
of each group). -/
def setenv_names (groups : List (List String)) : List String :=
  groups.map (fun g => g.getD 1 "")

/-- `True` exactly on the `sys.exit(1)` outcome for a missing required
mount path. -/
def is_missing_required : Except BwrapError (List (List String)) → Bool
  | .error (.missingRequiredPath _) => true
  | _ => false

/-- The process exit status of a failed compile (`none` when the compile
succeeded and the process goes on to run the sandbox). -/
def result_exit_status : Except BwrapError (List (List String)) → Option ℕ
  | .error e => some e.exit_status
  | .ok _ => none

/-- Whether the plan phase produced the given mount task. -/
def plan_has_task (r : Except BwrapError PlanState) (t : MountTask) : Bool :=
  match r with
  | .ok st => decide (t ∈ st.mount_tasks)
  | .error _ => false

/-! ### Concrete host states and configurations used as test inputs -/

/-- A host on which every probed path exists, `$HOME` is `/home/user`,
`$PATH` is `/usr/bin:/usr2/bin` and no other variable is set. -/
def host_all : Host where
  home := "/home/user"
  uid := 1000
  env := fun v => if v = "PATH" then some "/usr/bin:/usr2/bin" else none
  pathExists := fun _ => true
  realpath := fun p => p

/-- The same host state as `host_all`, written differently (the two records
agree pointwise on every probe). -/
def host_all2 : Host where
  home := "/home/" ++ "user"
  uid := 1000
  env := fun v => if v = "PATH" then some ("/usr/bin" ++ ":/usr2/bin") else none
  pathExists := fun _ => true
  realpath := fun p => "" ++ p

/-- `host_all`, except that `/lib64` does not exist. -/
def host_no_lib64 : Host where
  home := "/home/user"
  uid := 1000
  env := fun v => if v = "PATH" then some "/usr/bin" else none
  pathExists := fun p => !(p == "/lib64")
  realpath := fun p => p

/-- `host_all`, except that `/tmp/.X11-unix/X0` does not exist (the nested
display's socket has not been created yet). -/
def host_no_x0 : Host where
  home := "/home/user"
  uid := 1000
  env := fun v => if v = "PATH" then some "/usr/bin" else none
  pathExists := fun p => !(p == "/tmp/.X11-unix/X0")
  realpath := fun p => p

/-- A minimal configuration: no display, no networking, no sound, no
persistent `~/.wine`, no extra binds, no Wine, no program. -/
def cfg_base : Config where
  x11 := .NONE
  x11_display_number := 0
  network := false
  pulseaudio := false
  dotwine := none
  extra_binds := []
  configure := false
  with_wine := false
  second_try := false
  argv_0 := none
  argv_1_plus := []

/-- `cfg_base` with a nested X11 display on display number 0. -/
def cfg_x11 : Config :=
  { cfg_base with x11 := .XEPHYR, x11_display_number := 0 }


/-! ## Helper lemmas -/

theorem mem_ordered_insert {α : Type} (le : α → α → Bool) (x a : α) (l : List α) :
    a ∈ ordered_insert le x l ↔ a = x ∨ a ∈ l := by
  induction l with
  | nil => simp [ordered_insert]
  | cons y ys ih =>
    by_cases h : le x y = true
    · rw [ordered_insert, if_pos h]
      simp
    · rw [ordered_insert, if_neg h]
      simp only [List.mem_cons, ih]
      tauto

theorem mem_insertion_sort {α : Type} (le : α → α → Bool) (a : α) (l : List α) :
    a ∈ insertion_sort le l ↔ a ∈ l := by
  induction l with
  | nil => simp [insertion_sort]
  | cons x xs ih => simp [insertion_sort, mem_ordered_insert, ih]

theorem sorted_ordered_insert {α : Type} (le : α → α → Bool)
    (htot : ∀ a b, le a b = true ∨ le b a = true)
    (htrans : ∀ a b c, le a b = true → le b c = true → le a c = true)
    (x : α) (l : List α) (hl : l.Pairwise (fun a b => le a b = true)) :
    (ordered_insert le x l).Pairwise (fun a b => le a b = true) := by
  induction l with
  | nil =>
    rw [ordered_insert]
    exact List.pairwise_singleton _ _
  | cons y ys ih =>
    rcases List.pairwise_cons.mp hl with ⟨hy, hys⟩
    by_cases h : le x y = true
    · rw [ordered_insert, if_pos h]
      refine List.pairwise_cons.mpr ⟨?_, hl⟩
      intro b hb
      rcases List.mem_cons.mp hb with rfl | hb
      · exact h
      · exact htrans x y b h (hy b hb)
    · rw [ordered_insert, if_neg h]
      refine List.pairwise_cons.mpr ⟨?_, ih hys⟩
      intro b hb
      rcases (mem_ordered_insert le x b ys).mp hb with hbx | hb
      · rw [hbx]
        rcases htot x y with hxy | hyx
        · exact absurd hxy h
        · exact hyx
      · exact hy b hb

theorem sorted_insertion_sort {α : Type} (le : α → α → Bool)
    (htot : ∀ a b, le a b = true ∨ le b a = true)
    (htrans : ∀ a b c, le a b = true → le b c = true → le a c = true)
    (l : List α) :
    (insertion_sort le l).Pairwise (fun a b => le a b = true) := by
  induction l with
  | nil => exact List.Pairwise.nil
  | cons x xs ih => exact sorted_ordered_insert le htot htrans x (insertion_sort le xs) ih

theorem mem_of_getLast?_eq {α : Type} (l : List α) (m : α) (hm : l.getLast? = some m) :
    m ∈ l := by
  induction l with
  | nil => cases hm
  | cons x xs ih =>
    cases xs with
    | nil =>
      simp only [List.getLast?_singleton, Option.some.injEq] at hm
      simp [hm]
    | cons y ys =>
      rw [List.getLast?_cons_cons] at hm
      exact List.mem_cons_of_mem x (ih hm)

theorem getLast?_eq_none_of {α : Type} (l : List α) (h : l.getLast? = none) : l = [] := by
  cases l with
  | nil => rfl
  | cons x xs =>
    exfalso
    induction xs generalizing x with
    | nil => cases h
    | cons y ys ih =>
      rw [List.getLast?_cons_cons] at h
      exact ih y h

theorem chars_le_total (a b : List Char) : chars_le a b = true ∨ chars_le b a = true := by
  induction a generalizing b with
  | nil => left; rfl
  | cons x xs ih =>
    cases b with
    | nil => right; rfl
    | cons y ys =>
      by_cases hxy : x < y
      · left; simp [chars_le, hxy]
      · by_cases hyx : y < x
        · right; simp [chars_le, hyx, asymm hyx]
        · rcases ih ys with h | h
          · left; simp [chars_le, hxy, hyx, h]
          · right; simp [chars_le, hxy, hyx, h]

theorem chars_le_trans (a b c : List Char) (hab : chars_le a b = true)
    (hbc : chars_le b c = true) : chars_le a c = true := by
  induction a generalizing b c with
  | nil => rfl
  | cons x xs ih =>
    cases b with
    | nil => simp [chars_le] at hab
    | cons y ys =>
      cases c with
      | nil => simp [chars_le] at hbc
      | cons z zs =>
        by_cases hxy : x < y
        · by_cases hyz : y < z
          · simp [chars_le, lt_trans hxy hyz]
          · by_cases hzy : z < y
            · simp [chars_le, hyz, hzy] at hbc
            · have hyz' : y = z := le_antisymm (le_of_not_lt hzy) (le_of_not_lt hyz)
              have hxz : x < z := hyz' ▸ hxy
              simp [chars_le, hxz]
        · by_cases hyx : y < x
          · simp [chars_le, hxy, hyx] at hab
          · have hxy' : x = y := le_antisymm (le_of_not_lt hyx) (le_of_not_lt hxy)
            subst hxy'
            by_cases hxz : x < z
            · simp [chars_le, hxz]
            · by_cases hzx : z < x
              · simp [chars_le, hxz, hzx] at hbc
              · simp only [chars_le, if_neg hxy, if_neg hyx, if_neg hxz, if_neg hzx,
                  if_neg (lt_irrefl x)] at hab hbc ⊢
                exact ih ys zs hab hbc

theorem str_le_total (a b : String) : str_le a b = true ∨ str_le b a = true :=
  chars_le_total a.data b.data

theorem str_le_trans (a b c : String) (hab : str_le a b = true)
    (hbc : str_le b c = true) : str_le a c = true :=
  chars_le_trans a.data b.data c.data hab hbc

/-- The last element of a `nat_le`-sorted list bounds every member. -/
theorem sorted_getLast?_max (l : List ℕ) (hl : l.Pairwise (fun a b => nat_le a b = true))
    (m : ℕ) (hm : l.getLast? = some m) (c : ℕ) (hc : c ∈ l) : c ≤ m := by
  induction l with
  | nil => cases hc
  | cons x xs ih =>
    rcases List.pairwise_cons.mp hl with ⟨hx, hxs⟩
    cases xs with
    | nil =>
      simp only [List.getLast?_singleton, Option.some.injEq] at hm
      rcases List.mem_singleton.mp hc with rfl
      omega
    | cons y ys =>
      rw [List.getLast?_cons_cons] at hm
      rcases List.mem_cons.mp hc with rfl | hc'
      · have hmem : m ∈ y :: ys := mem_of_getLast?_eq _ m hm
        have := hx m hmem
        simpa [nat_le] using this
      · exact ih hxs hm hc'

/-- Core behaviour of `find_unused`: it returns the largest element of the
candidate set `{0, …, card used} ∪ {minimum}` that is not occupied, and such
an element always exists. -/
theorem find_unused_spec (used_displays : Finset ℕ) (minimum : ℕ) :
    ∃ r, find_unused used_displays minimum = some r ∧
      r ∈ (Finset.range (used_displays.card + 1) ∪ {minimum}) \ used_displays ∧
      ∀ c ∈ (Finset.range (used_displays.card + 1) ∪ {minimum}) \ used_displays,
        c ≤ r := by
  set cl : List ℕ :=
    (List.range (used_displays.card + 1) ++ [minimum]).filter
      (fun c => decide (c ∉ used_displays)) with hcl
  have hmemcl : ∀ c : ℕ, c ∈ cl ↔
      c ∈ (Finset.range (used_displays.card + 1) ∪ {minimum}) \ used_displays := by
    intro c
    rw [hcl]
    simp [List.mem_filter, Finset.mem_sdiff, Finset.mem_union, Finset.mem_range,
      List.mem_range, or_and_right]
  have hdne : ∃ c, c ∈ cl := by
    by_cases hmin : minimum ∈ used_displays
    · -- some element of {0, …, card used} is unoccupied, by cardinality
      by_contra hnone
      push_neg at hnone
      have hsub : Finset.range (used_displays.card + 1) ⊆ used_displays := by
        intro c hc
        by_contra hcu
        exact hnone c ((hmemcl c).mpr
          (Finset.mem_sdiff.mpr ⟨Finset.mem_union_left _ hc, hcu⟩))
      have := Finset.card_le_card hsub
      simp [Finset.card_range] at this
    · exact ⟨minimum, (hmemcl minimum).mpr
        (Finset.mem_sdiff.mpr ⟨Finset.mem_union_right _ (Finset.mem_singleton_self _), hmin⟩)⟩
  set l : List ℕ := insertion_sort nat_le cl with hl
  have hmeml : ∀ c : ℕ, c ∈ l ↔ c ∈ cl := fun c => mem_insertion_sort nat_le c cl
  have hsorted : l.Pairwise (fun a b => nat_le a b = true) :=
    sorted_insertion_sort nat_le
      (fun a b => by simp only [nat_le, decide_eq_true_eq]; omega)
      (fun a b c h1 h2 => by
        simp only [nat_le, decide_eq_true_eq] at h1 h2 ⊢; omega) cl
  have hsome : ∃ m, l.getLast? = some m := by
    cases hgl : l.getLast? with
    | none =>
      exfalso
      rcases hdne with ⟨c, hc⟩
      have : c ∈ l := (hmeml c).mpr hc
      rw [getLast?_eq_none_of l hgl] at this
      cases this
    | some m => exact ⟨m, rfl⟩
  rcases hsome with ⟨m, hm⟩
  refine ⟨m, hm, ?_, ?_⟩
  · exact (hmemcl m).mp ((hmeml m).mp (mem_of_getLast?_eq l m hm))
  · intro c hc
    exact sorted_getLast?_max l hsorted m hm c ((hmeml c).mpr ((hmemcl c).mpr hc))

/-! ### Lemmas about the mount-emission loop -/

/-- The shapes `emit_mount_task` can produce on success. -/
theorem emit_mount_task_cases (pe : String → Bool) (ks : Option String)
    (mt : MountTask) (g? : Option (List String))
    (h : emit_mount_task pe ks mt = .ok g?) :
    g? = none ∨
    g? = some ["--tmpfs", mt.target] ∨ g? = some ["--dev", mt.target] ∨
    g? = some ["--proc", mt.target] ∨
    g? = some ["--ro-bind", mt.source.getD mt.target, mt.target] ∨
    g? = some ["--bind", mt.source.getD mt.target, mt.target] ∨
    g? = some ["--dev-bind", mt.source.getD mt.target, mt.target] := by
  unfold emit_mount_task at h
  split_ifs at h <;> simp_all

/-- `emit_mount_task` fails only with the missing-required-path condition,
on the task's own target. -/
theorem emit_mount_task_error (pe : String → Bool) (ks : Option String)
    (mt : MountTask) (e : BwrapError)
    (h : emit_mount_task pe ks mt = .error e) :
    e = .missingRequiredPath mt.target := by
  unfold emit_mount_task at h
  split_ifs at h
  all_goals simp_all

/-- A required bind/device task whose target path is missing (and is not the
reserved X11 socket) makes `emit_mount_task` fail. -/
theorem emit_mount_task_bad (pe : String → Bool) (ks : Option String)
    (mt : MountTask) (hbind : is_bind_mode mt.mode = true)
    (hreq : mt.required = true) (hmiss : pe mt.target = false)
    (hkeep : keep_missing_target ks mt.target = false) :
    emit_mount_task pe ks mt = .error (.missingRequiredPath mt.target) := by
  have h1 : ¬ mt.mode = MountMode.TMPFS := by
    intro h; rw [h] at hbind; cases hbind
  have h2 : ¬ mt.mode = MountMode.DEVTMPFS := by
    intro h; rw [h] at hbind; cases hbind
  have h3 : ¬ mt.mode = MountMode.PROC := by
    intro h; rw [h] at hbind; cases hbind
  have hcond : (!pe mt.target && !keep_missing_target ks mt.target) = true := by
    rw [hmiss, hkeep]; rfl
  unfold emit_mount_task
  rw [if_neg h1, if_neg h2, if_neg h3, if_pos hcond, if_pos hreq]

/-- A successfully emitted mount group ends in the task's target and is
neither the `--clearenv` marker group nor the `--` separator group. -/
theorem emit_group_target (pe : String → Bool) (ks : Option String)
    (mt0 : MountTask) (g : List String)
    (h : emit_mount_task pe ks mt0 = .ok (some g)) :
    g.getLastD "" = mt0.target ∧ g ≠ ["--clearenv"] ∧ g ≠ ["--"] := by
  rcases emit_mount_task_cases pe ks mt0 (some g) h with h' | h' | h' | h' | h' | h' | h'
  · exact Option.noConfusion h'
  all_goals
    rw [Option.some.injEq] at h'
    subst h'
    exact ⟨rfl, by simp, by simp⟩

/-- The targets of the emitted mount groups (last element of each group)
form a sublist of the input tasks' targets, in order. -/
theorem emit_mount_tasks_targets_sublist (pe : String → Bool) (ks : Option String)
    (l : List MountTask) (gs : List (List String))
    (h : emit_mount_tasks pe ks l = .ok gs) :
    List.Sublist (mount_targets gs) (l.map (fun t => t.target)) := by
  induction l generalizing gs with
  | nil =>
    unfold emit_mount_tasks at h
    simp only [Except.ok.injEq] at h
    subst h
    simp [mount_targets]
  | cons mt0 rest ih =>
    unfold emit_mount_tasks at h
    cases h1 : emit_mount_task pe ks mt0 with
    | error e => rw [h1] at h; cases h
    | ok g? =>
      rw [h1] at h
      cases h2 : emit_mount_tasks pe ks rest with
      | error e => rw [h2] at h; cases h
      | ok groups =>
        rw [h2] at h
        cases g? with
        | none =>
          simp only [Except.ok.injEq] at h
          subst h
          exact List.Sublist.cons _ (ih groups h2)
        | some g =>
          simp only [Except.ok.injEq] at h
          subst h
          have hlast := (emit_group_target pe ks mt0 g h1).1
          show List.Sublist (g.getLastD "" :: mount_targets groups) _
          rw [hlast]
          exact List.Sublist.cons₂ _ (ih groups h2)

/-- Every emitted mount group differs from the `--clearenv` marker group
and from the `--` separator group. -/
theorem emit_mount_tasks_shapes (pe : String → Bool) (ks : Option String)
    (l : List MountTask) (gs : List (List String))
    (h : emit_mount_tasks pe ks l = .ok gs) :
    ∀ g ∈ gs, g ≠ ["--clearenv"] ∧ g ≠ ["--"] := by
  induction l generalizing gs with
  | nil =>
    unfold emit_mount_tasks at h
    simp only [Except.ok.injEq] at h
    subst h
    intro g hg
    cases hg
  | cons mt0 rest ih =>
    unfold emit_mount_tasks at h
    cases h1 : emit_mount_task pe ks mt0 with
    | error e => rw [h1] at h; cases h
    | ok g? =>
      rw [h1] at h
      cases h2 : emit_mount_tasks pe ks rest with
      | error e => rw [h2] at h; cases h
      | ok groups =>
        rw [h2] at h
        cases g? with
        | none =>
          simp only [Except.ok.injEq] at h
          subst h
          exact ih groups h2
        | some g =>
          simp only [Except.ok.injEq] at h
          subst h
          intro g' hg'
          rcases List.mem_cons.mp hg' with hgg | hg'
          · rw [hgg]
            exact (emit_group_target pe ks mt0 g h1).2
          · exact ih groups h2 g' hg'

/-- `emit_mount_tasks` fails only with the missing-required-path
condition. -/
theorem emit_mount_tasks_error (pe : String → Bool) (ks : Option String)
    (l : List MountTask) (e : BwrapError)
    (h : emit_mount_tasks pe ks l = .error e) :
    ∃ p, e = .missingRequiredPath p := by
  induction l generalizing e with
  | nil => unfold emit_mount_tasks at h; cases h
  | cons mt0 rest ih =>
    unfold emit_mount_tasks at h
    cases h1 : emit_mount_task pe ks mt0 with
    | error e' =>
      rw [h1] at h
      simp only [Except.error.injEq] at h
      rw [← h]
      exact ⟨mt0.target, emit_mount_task_error pe ks mt0 e' h1⟩
    | ok g? =>
      rw [h1] at h
      cases h2 : emit_mount_tasks pe ks rest with
      | error e2 =>
        rw [h2] at h
        cases g? with
        | none =>
          simp only [Except.error.injEq] at h
          rw [← h]
          exact ih e2 h2
        | some g =>
          simp only [Except.error.injEq] at h
          rw [← h]
          exact ih e2 h2
      | ok groups =>
        rw [h2] at h
        cases g? <;> cases h

/-- A required bind/device task with a missing target (other than the
reserved X11 socket) anywhere in the list makes the whole emission fail
with the missing-required-path condition. -/
theorem emit_mount_tasks_fails (pe : String → Bool) (ks : Option String)
    (l : List MountTask) (t : MountTask) (hmem : t ∈ l)
    (hbind : is_bind_mode t.mode = true) (hreq : t.required = true)
    (hmiss : pe t.target = false) (hkeep : keep_missing_target ks t.target = false) :
    ∃ p, emit_mount_tasks pe ks l = .error (.missingRequiredPath p) := by
  induction l with
  | nil => cases hmem
  | cons mt0 rest ih =>
    rcases List.mem_cons.mp hmem with hEq | hmem'
    · refine ⟨t.target, ?_⟩
      unfold emit_mount_tasks
      rw [← hEq, emit_mount_task_bad pe ks t hbind hreq hmiss hkeep]
    · cases h1 : emit_mount_task pe ks mt0 with
      | error e =>
        refine ⟨mt0.target, ?_⟩
        unfold emit_mount_tasks
        rw [h1, emit_mount_task_error pe ks mt0 e h1]
      | ok g? =>
        rcases ih hmem' with ⟨p, hp⟩
        refine ⟨p, ?_⟩
        unfold emit_mount_tasks
        rw [h1, hp]

/-! ### Lemmas about plan building and the assembled argv -/

/-- A successful `build_plan` is `build_plan_pure` applied to successful
parses. -/
theorem build_plan_ok_elim (host : Host) (config : Config) (st : PlanState)
    (h : build_plan host config = .ok st) :
    ∃ dw ex, dotwine_parse config = .ok dw ∧ extra_parse config = .ok ex ∧
      st = build_plan_pure host config dw ex := by
  unfold build_plan at h
  cases h1 : dotwine_parse config with
  | error e => rw [h1] at h; cases h
  | ok dw =>
    rw [h1] at h
    cases h2 : extra_parse config with
    | error e => rw [h2] at h; cases h
    | ok ex =>
      rw [h2] at h
      simp only [Except.ok.injEq] at h
      exact ⟨dw, ex, rfl, rfl, h.symm⟩

/-- The namespace-unshare flags of any built plan. -/
theorem build_plan_pure_unshare (host : Host) (config : Config)
    (dw : Option (String × AccessMode)) (ex : List MountTask) :
    (build_plan_pure host config dw ex).unshare_args =
      if config.network then ["--unshare-all", "--share-net"]
      else ["--unshare-all"] := by
  unfold build_plan_pure
  by_cases h : config.network <;> simp [h]

/-- A successful compile decomposes into its three fallible stages and the
pure assembly. -/
theorem create_ok_decomp (host : Host) (config : Config) (groups : List (List String))
    (h : create_bwrap_argv host config = .ok groups) :
    ∃ st mg pv, build_plan host config = .ok st ∧
      emit_mount_tasks host.pathExists (x11_socket_of config)
        (sort_mount_tasks st.mount_tasks) = .ok mg ∧
      environ_path host = .ok pv ∧
      groups = assemble_argv host config st mg pv := by
  unfold create_bwrap_argv at h
  cases h1 : build_plan host config with
  | error e => rw [h1] at h; cases h
  | ok st =>
    rw [h1] at h
    simp only at h
    cases h2 : emit_mount_tasks host.pathExists (x11_socket_of config)
        (sort_mount_tasks st.mount_tasks) with
    | error e => rw [h2] at h; cases h
    | ok mg =>
      rw [h2] at h
      simp only at h
      cases h3 : environ_path host with
      | error e => rw [h3] at h; cases h
      | ok pv =>
        rw [h3] at h
        simp only [Except.ok.injEq] at h
        exact ⟨st, mg, pv, rfl, h2, rfl, h.symm⟩

/-- `takeWhile` over a block that satisfies the predicate followed by a
stopper. -/
theorem takeWhile_append_block {α : Type} (p : α → Bool) (l1 : List α) (c : α)
    (l2 : List α) (h1 : ∀ x ∈ l1, p x = true) (hc : p c = false) :
    (l1 ++ c :: l2).takeWhile p = l1 := by
  induction l1 with
  | nil => simp [List.takeWhile_cons, hc]
  | cons x xs ih =>
    have hx : p x = true := h1 x (List.mem_cons_self x xs)
    simp only [List.cons_append, List.takeWhile_cons, hx, if_true]
    rw [ih (fun y hy => h1 y (List.mem_cons_of_mem x hy))]

/-- `dropWhile` over a block that satisfies the predicate followed by a
stopper. -/
theorem dropWhile_append_block {α : Type} (p : α → Bool) (l1 : List α) (c : α)
    (l2 : List α) (h1 : ∀ x ∈ l1, p x = true) (hc : p c = false) :
    (l1 ++ c :: l2).dropWhile p = c :: l2 := by
  induction l1 with
  | nil => simp [List.dropWhile_cons, hc]
  | cons x xs ih =>
    have hx : p x = true := h1 x (List.mem_cons_self x xs)
    simp only [List.cons_append, List.dropWhile_cons, hx, if_true]
    exact ih (fun y hy => h1 y (List.mem_cons_of_mem x hy))

/-- Every group `emit_env` produces is a three-element `--setenv` group. -/
theorem emit_env_shapes (hostEnv : String → Option String)
    (l : List (String × Option String)) :
    ∀ g ∈ emit_env hostEnv l, ∃ k v, g = ["--setenv", k, v] := by
  induction l with
  | nil => intro g hg; cases hg
  | cons kv rest ih =>
    intro g hg
    unfold emit_env at hg
    rcases kv with ⟨env_var, env_value⟩
    cases env_value with
    | some v =>
      rcases List.mem_cons.mp hg with hgg | hg'
      · exact ⟨env_var, v, hgg⟩
      · exact ih g hg'
    | none =>
      cases he : hostEnv env_var with
      | some v =>
        rw [he] at hg
        rcases List.mem_cons.mp hg with hgg | hg'
        · exact ⟨env_var, v, hgg⟩
        · exact ih g hg'
      | none =>
        rw [he] at hg
        exact ih g hg

/-- The names of the emitted `--setenv` groups form a sublist of the task
keys, in order. -/
theorem emit_env_names_sublist (hostEnv : String → Option String)
    (l : List (String × Option String)) :
    List.Sublist (setenv_names (emit_env hostEnv l)) (l.map (fun kv => kv.1)) := by
  induction l with
  | nil => simp [emit_env, setenv_names]
  | cons kv rest ih =>
    unfold emit_env
    rcases kv with ⟨env_var, env_value⟩
    cases env_value with
    | some v => exact List.Sublist.cons₂ _ ih
    | none =>
      cases he : hostEnv env_var with
      | some v => exact List.Sublist.cons₂ _ ih
      | none => exact List.Sublist.cons _ ih

/-- The keys of the sorted environment tasks are sorted. -/
theorem sort_env_tasks_keys_sorted (l : List (String × Option String)) :
    ((sort_env_tasks l).map (fun kv => kv.1)).Pairwise
      (fun a b => str_le a b = true) := by
  have hs := sorted_insertion_sort by_key
    (fun a b => str_le_total a.1 b.1)
    (fun a b c h1 h2 => str_le_trans a.1 b.1 c.1 h1 h2) l
  exact List.Pairwise.map _ (fun a b hab => hab) hs

/-- The targets of the sorted mount tasks are sorted. -/
theorem sort_mount_tasks_targets_sorted (l : List MountTask) :
    ((sort_mount_tasks l).map (fun t => t.target)).Pairwise
      (fun a b => str_le a b = true) := by
  have hs := sorted_insertion_sort by_target
    (fun a b => str_le_total a.target b.target)
    (fun a b c h1 h2 => str_le_trans a.target b.target c.target h1 h2) l
  exact List.Pairwise.map _ (fun a b hab => hab) hs

/-- `mount_section` recovers exactly the emitted mount groups from the
assembled argv. -/
theorem mount_section_assemble (host : Host) (config : Config) (st : PlanState)
    (mg : List (List String)) (pv : String)
    (hmg : ∀ g ∈ mg, g ≠ ["--clearenv"]) :
    mount_section (assemble_argv host config st mg pv) = mg := by
  unfold assemble_argv mount_section
  simp only [List.cons_append, List.nil_append, List.drop_succ_cons, List.drop_zero]
  have hassoc : mg ++ [["--clearenv"]] ++
      emit_env host.env (sort_env_tasks (st.env_tasks ++
        [("PATH", some (py_join ":" (filter_paths host.realpath
          (sort_mount_tasks st.mount_tasks) (py_split ':' pv))))])) ++
      [["--"]] ++ tail_groups config st.run_winecfg =
      mg ++ (["--clearenv"] :: (emit_env host.env (sort_env_tasks (st.env_tasks ++
        [("PATH", some (py_join ":" (filter_paths host.realpath
          (sort_mount_tasks st.mount_tasks) (py_split ':' pv))))])) ++
      [["--"]] ++ tail_groups config st.run_winecfg)) := by
    simp
  rw [hassoc]
  refine takeWhile_append_block _ mg _ _ ?_ ?_
  · intro g hg
    simpa [bne_iff_ne] using hmg g hg
  · simp

/-- `env_section` recovers exactly the emitted environment groups from the
assembled argv. -/
theorem env_section_assemble (host : Host) (config : Config) (st : PlanState)
    (mg : List (List String)) (pv : String)
    (hmg : ∀ g ∈ mg, g ≠ ["--clearenv"])
    (hus : st.unshare_args ≠ ["--clearenv"]) :
    env_section (assemble_argv host config st mg pv) =
      emit_env host.env (sort_env_tasks (st.env_tasks ++
        [("PATH", some (py_join ":" (filter_paths host.realpath
          (sort_mount_tasks st.mount_tasks) (py_split ':' pv))))])) := by
  unfold assemble_argv env_section
  set eg := emit_env host.env (sort_env_tasks (st.env_tasks ++
    [("PATH", some (py_join ":" (filter_paths host.realpath
      (sort_mount_tasks st.mount_tasks) (py_split ':' pv))))])) with heg
  have hassoc : [["bwrap"], ["--new-session"], st.unshare_args] ++ mg ++
      [["--clearenv"]] ++ eg ++ [["--"]] ++ tail_groups config st.run_winecfg =
      (([["bwrap"], ["--new-session"], st.unshare_args] ++ mg) ++
        (["--clearenv"] :: (eg ++ [["--"]] ++ tail_groups config st.run_winecfg))) := by
    simp
  rw [hassoc, dropWhile_append_block _ _ _ _ ?_ (by simp)]
  · simp only [List.drop_succ_cons, List.drop_zero]
    have hassoc2 : eg ++ [["--"]] ++ tail_groups config st.run_winecfg =
        eg ++ (["--"] :: tail_groups config st.run_winecfg) := by simp
    rw [hassoc2]
    refine takeWhile_append_block _ eg _ _ ?_ (by simp)
    intro g hg
    rcases emit_env_shapes host.env _ g (heg ▸ hg) with ⟨k, v, hkv⟩
    simp [bne_iff_ne, hkv]
  · intro g hg
    rw [List.mem_append] at hg
    rcases hg with hg3 | hgmg
    · rcases List.mem_cons.mp hg3 with hgg | hg3
      · simp [bne_iff_ne, hgg]
      · rcases List.mem_cons.mp hg3 with hgg | hg3
        · simp [bne_iff_ne, hgg]
        · rcases List.mem_cons.mp hg3 with hgg | hg3
          · rw [hgg]
            simpa [bne_iff_ne] using hus
          · cases hg3
    · simpa [bne_iff_ne] using hmg g hgmg

/-- Two host records that agree on every probe are equal. -/
theorem host_ext (h1 h2 : Host) (hhome : h1.home = h2.home)
    (huid : h1.uid = h2.uid) (henv : ∀ v, h1.env v = h2.env v)
    (hpe : ∀ p, h1.pathExists p = h2.pathExists p)
    (hrp : ∀ p, h1.realpath p = h2.realpath p) : h1 = h2 := by
  cases h1 with
  | mk a b c d e =>
    cases h2 with
    | mk a2 b2 c2 d2 e2 =>
      have e1 : a = a2 := hhome
      have e2' : b = b2 := huid
      have e3 : c = c2 := funext henv
      have e4 : d = d2 := funext hpe
      have e5 : e = e2 := funext hrp
      rw [e1, e2', e3, e4, e5]

/-! ## Claim theorems -/

/-- Claim C1, counterexample.  The claim says `X11Display.find_unused`
returns the smallest unused display number at or above the minimum.  At
occupied set `{2}` and minimum `0` this is false: the smallest unused
number at or above `0` is `0`, but the allocator returns `1` (the largest
unoccupied element of its candidate set `{0, 1} ∪ {0}`). -/
theorem C1_counterexample :
    ¬ (∃ r, find_unused {2} 0 = some r ∧ r ∉ ({2} : Finset ℕ) ∧ 0 ≤ r ∧
        ∀ c, c ∉ ({2} : Finset ℕ) → 0 ≤ c → r ≤ c) := by
  rintro ⟨r, hr, -, -, hmin⟩
  have hval : find_unused {2} 0 = some 1 := by decide
  rw [hval] at hr
  rw [Option.some.injEq] at hr
  have h0 := hmin 0 (by decide) (by decide)
  omega

/-- Claim C1, amended.  `X11Display.find_unused` returns an unoccupied
display number, namely the *largest* unoccupied element of the candidate
set `{0, …, |occupied|} ∪ {minimum}` (not the smallest unused number at or
above the minimum; the result can even lie below the minimum).  In
particular, for occupied numbers `{0, 1, 3}` and minimum `0` it returns
`2`, and for occupied `{}` and minimum `5` it returns `5`. -/
theorem C1_display_allocation (used_displays : Finset ℕ) (minimum : ℕ) :
    (∃ r, find_unused used_displays minimum = some r ∧ r ∉ used_displays ∧
      r ∈ Finset.range (used_displays.card + 1) ∪ {minimum} ∧
      ∀ c ∈ Finset.range (used_displays.card + 1) ∪ {minimum},
        c ∉ used_displays → c ≤ r) ∧
    find_unused {0, 1, 3} 0 = some 2 ∧
    find_unused (∅ : Finset ℕ) 5 = some 5 := by
  refine ⟨?_, by decide, by decide⟩
  rcases find_unused_spec used_displays minimum with ⟨r, hr, hmem, hmax⟩
  rw [Finset.mem_sdiff] at hmem
  exact ⟨r, hr, hmem.2, hmem.1, fun c hc hcu =>
    hmax c (Finset.mem_sdiff.mpr ⟨hc, hcu⟩)⟩

/-- Claim C10.  For every finite set of occupied display numbers and every
minimum, `X11Display.find_unused` returns a value without raising: the
candidate set it selects from (`{0, …, |occupied|} ∪ {minimum}` minus the
occupied set) is never empty, and the returned number is never
occupied. -/
theorem C10_allocator_total (used_displays : Finset ℕ) (minimum : ℕ) :
    ((Finset.range (used_displays.card + 1) ∪ {minimum}) \ used_displays).Nonempty ∧
    ∃ r, find_unused used_displays minimum = some r ∧ r ∉ used_displays := by
  rcases find_unused_spec used_displays minimum with ⟨r, hr, hmem, -⟩
  exact ⟨⟨r, hmem⟩, r, hr, (Finset.mem_sdiff.mp hmem).2⟩

/-- Claim C8.  The PTY relay's exit-code translation in `pty_spawn_argv`:
a child killed by signal `N` yields `128 + N`, a normally exiting child
yields its own exit status; in particular signal 2 yields 130 and exit
status 42 yields 42. -/
theorem C8_pty_exit_translation :
    (∀ (n : ℕ) (e : Option ℕ), pty_exit_code (some n) e = some (128 + n)) ∧
    (∀ e : ℕ, pty_exit_code none (some e) = some e) ∧
    pty_exit_code (some 2) none = some 130 ∧
    pty_exit_code none (some 42) = some 42 :=
  ⟨fun _ _ => rfl, fun _ => rfl, rfl, rfl⟩

/-- Claim C2, counterexample.  The claim says that when xpra backend
startup throws after the private temporary directory has been created, the
directory is removed before the exception propagates.  When the server
`Popen` raises `FileNotFoundError`, `__enter__` has created the directory,
propagates `SystemExit(127)`, and its effect trace contains no
removal of the temporary directory. -/
theorem C2_counterexample :
    (xpra_enter .serverNotFound).1 =
      [.createTempdir, .writeWrapperScript, .popenServer] ∧
    (xpra_enter .serverNotFound).2 = .systemExit 127 ∧
    XpraAction.createTempdir ∈ (xpra_enter .serverNotFound).1 ∧
    XpraAction.removeTempdir ∉ (xpra_enter .serverNotFound).1 := by
  decide

/-- Claim C2, amended.  If xpra backend startup throws after the private
temporary directory has been created, the exception (or the
`SystemExit(127)` that replaces a `FileNotFoundError`) propagates to the
caller *without* the directory being removed: no failing run of
`XpraContext.__enter__` performs the removal.  The directory is removed
only by `XpraContext.__exit__`, which the `with` statement runs only after
a successful `__enter__`. -/
theorem C2_enter_no_cleanup (fp : XpraFail) (h : fp ≠ .noFail) :
    XpraAction.createTempdir ∈ (xpra_enter fp).1 ∧
    XpraAction.removeTempdir ∉ (xpra_enter fp).1 ∧
    (xpra_enter fp).2 ≠ .ok ∧
    XpraAction.removeTempdir ∈ xpra_exit := by
  cases fp
  · exact absurd rfl h
  all_goals exact ⟨by decide, by decide, by decide, by decide⟩

/-- Witness for C2: the amended statement at the concrete failure point
where the xpra server binary is absent. -/
theorem C2_witness :
    XpraFail.serverNotFound ≠ XpraFail.noFail ∧
    (XpraAction.createTempdir ∈ (xpra_enter .serverNotFound).1 ∧
     XpraAction.removeTempdir ∉ (xpra_enter .serverNotFound).1 ∧
     (xpra_enter .serverNotFound).2 ≠ .ok ∧
     XpraAction.removeTempdir ∈ xpra_exit) :=
  ⟨by decide, C2_enter_no_cleanup .serverNotFound (by decide)⟩

/-- Claim C9.  A keyboard interrupt delivered to `main` at any point makes
the process exit with `128 + SIGINT = 130`, and whenever the display
context has been entered (its `__enter__` completed), its teardown
(`__exit__`) runs — for every body outcome, interrupt included. -/
theorem C9_keyboard_interrupt (s : MainScenario)
    (hint : s.interruptBeforeWith = true ∨ s.interruptDuringEnter = true ∨
      s.body = .kbInterrupt) :
    (run_main s).2 = 128 + SIGINT ∧
    (MainEvent.x11Entered ∈ (run_main s).1 →
      MainEvent.x11Teardown ∈ (run_main s).1) := by
  rcases s with ⟨ibw, ide, body⟩
  cases ibw
  · cases ide
    · cases body with
      | exits code =>
        exfalso
        simp only [Bool.false_eq_true, false_or] at hint
        cases hint
      | fileNotFound =>
        exfalso
        simp only [Bool.false_eq_true, false_or] at hint
        cases hint
      | kbInterrupt => exact ⟨rfl, fun _ => by decide⟩
    · exact ⟨rfl, fun hmem => by simp [run_main] at hmem⟩
  · cases ide
    · cases body with
      | exits code => exact ⟨rfl, fun hmem => by simp [run_main] at hmem⟩
      | fileNotFound => exact ⟨rfl, fun hmem => by simp [run_main] at hmem⟩
      | kbInterrupt => exact ⟨rfl, fun hmem => by simp [run_main] at hmem⟩
    · exact ⟨rfl, fun hmem => by simp [run_main] at hmem⟩

/-- Witness for C9: a keyboard interrupt during the `with` body, after the
display context was entered. -/
theorem C9_witness :
    (run_main ⟨false, false, .kbInterrupt⟩).2 = 128 + SIGINT ∧
    (MainEvent.x11Entered ∈ (run_main ⟨false, false, .kbInterrupt⟩).1 →
      MainEvent.x11Teardown ∈ (run_main ⟨false, false, .kbInterrupt⟩).1) :=
  C9_keyboard_interrupt ⟨false, false, .kbInterrupt⟩ (Or.inr (Or.inr rfl))

/-- Claim C5.  Search-path filtering keeps a resolved candidate entry if
and only if some bind or device mount task's target matches it under the
trailing-separator-guarded string comparison (equal or nested path, never
a mere shared string head such as `/usr` vs `/usr2/bin`); and concretely,
with `/usr` mounted read-only, candidate `/usr/bin` is kept while
`/usr2/bin` is dropped. -/
theorem C5_path_filter :
    (∀ (rp : String → String) (tasks : List MountTask) (cands : List String)
        (c : String),
      c ∈ filter_paths rp tasks cands ↔
        ∃ cand ∈ cands, rp cand = c ∧
          ∃ t ∈ tasks, is_bind_mode t.mode = true ∧
            py_startswith (single_trailing_sep c)
              (single_trailing_sep t.target) = true) ∧
    filter_paths (fun p => p) [⟨.BIND_RO, "/usr", none, true⟩]
      ["/usr/bin", "/usr2/bin"] = ["/usr/bin"] := by
  constructor
  · intro rp tasks cands c
    simp only [filter_paths, List.mem_filterMap]
    constructor
    · rintro ⟨cand, hcand, hf⟩
      by_cases hm : path_matches tasks (rp cand) = true
      · rw [if_pos hm, Option.some.injEq] at hf
        refine ⟨cand, hcand, hf, ?_⟩
        rw [path_matches, List.any_eq_true] at hm
        rcases hm with ⟨t, ht, htm⟩
        rw [Bool.and_eq_true] at htm
        rw [← hf]
        exact ⟨t, List.mem_reverse.mp ht, htm.2, htm.1⟩
      · rw [if_neg hm] at hf
        cases hf
    · rintro ⟨cand, hcand, hrpc, t, ht, hbind, hsw⟩
      refine ⟨cand, hcand, ?_⟩
      have hm : path_matches tasks (rp cand) = true := by
        rw [path_matches, List.any_eq_true]
        refine ⟨t, List.mem_reverse.mpr ht, ?_⟩
        rw [Bool.and_eq_true, hrpc]
        exact ⟨hsw, hbind⟩
      rw [if_pos hm, hrpc]
  · decide

/-- Claim C6, counterexample.  The claim says the compiled command's fixed
head also carries a user-namespace-disable flag, a die-with-parent flag and
a randomly generated hostname.  For a concrete successful compile, the
fixed head is only `bwrap`, `--new-session`, `--unshare-all`, and the whole
argv contains no `--disable-userns`, `--die-with-parent` or `--hostname`
flag (nor is any capability check performed anywhere in
`create_bwrap_argv`). -/
theorem C6_counterexample :
    ((create_bwrap_argv host_all cfg_base).toOption.getD []).take 3 =
      [["bwrap"], ["--new-session"], ["--unshare-all"]] ∧
    "--disable-userns" ∉ ((create_bwrap_argv host_all cfg_base).toOption.getD []).flatten ∧
    "--die-with-parent" ∉ ((create_bwrap_argv host_all cfg_base).toOption.getD []).flatten ∧
    "--hostname" ∉ ((create_bwrap_argv host_all cfg_base).toOption.getD []).flatten := by
  decide

/-- Claim C6, amended.  The compiled command's fixed head is exactly the
namespace-engine binary name (`bwrap`), the fresh-session flag
(`--new-session`), and the unshare-all flag extended by the share-network
flag exactly when networking is enabled; this code emits no die-with-parent
flag, no hostname, no userns-disable flag, and performs no capability
check. -/
theorem C6_fixed_head (host : Host) (config : Config) (groups : List (List String))
    (h : create_bwrap_argv host config = .ok groups) :
    groups.take 3 = [["bwrap"], ["--new-session"],
      if config.network then ["--unshare-all", "--share-net"]
      else ["--unshare-all"]] := by
  rcases create_ok_decomp host config groups h with ⟨st, mg, pv, hplan, hmg, hpv, hassm⟩
  subst hassm
  unfold assemble_argv
  simp only [List.cons_append, List.take_succ_cons, List.take_zero]
  rcases build_plan_ok_elim host config st hplan with ⟨dw, ex, -, -, hst⟩
  rw [hst, build_plan_pure_unshare]

/-- Witness for C6: the fixed head of a concrete successful compile. -/
theorem C6_witness :
    ((create_bwrap_argv host_all cfg_base).toOption.getD []).take 3 =
      [["bwrap"], ["--new-session"],
        if cfg_base.network then ["--unshare-all", "--share-net"]
        else ["--unshare-all"]] :=
  C6_fixed_head host_all cfg_base
    ((create_bwrap_argv host_all cfg_base).toOption.getD []) rfl

/-- Claim C4, counterexample.  The claim says a required bind task with a
missing source path always makes the compile fail with exit code 1.  With
a nested display enabled, the display-socket bind task (required, source
defaulting to its target, target `/tmp/.X11-unix/X0` absent on the host)
is produced by the plan, yet the compile succeeds and yields an argv. -/
theorem C4_counterexample :
    plan_has_task (build_plan host_no_x0 cfg_x11)
      ⟨.BIND_RW, "/tmp/.X11-unix/X0", none, true⟩ = true ∧
    host_no_x0.pathExists "/tmp/.X11-unix/X0" = false ∧
    (⟨.BIND_RW, "/tmp/.X11-unix/X0", none, true⟩ : MountTask).required = true ∧
    is_missing_required (create_bwrap_argv host_no_x0 cfg_x11) = false ∧
    result_exit_status (create_bwrap_argv host_no_x0 cfg_x11) = none := by
  decide

/-- Claim C4, amended.  For any mount task of the built plan that is
bind-mode, marked required, has no separate source (so its source path is
its target path) and whose path does not exist on the host — except the
reserved display-socket path when a display is enabled — compiling fails
with the missing-required-path condition, produces no argv, and the
process exits with code 1. -/
theorem C4_missing_required (host : Host) (config : Config) (st : PlanState)
    (t : MountTask)
    (hplan : build_plan host config = .ok st)
    (hmem : t ∈ st.mount_tasks)
    (hbind : is_bind_mode t.mode = true)
    (hreq : t.required = true)
    (_hsrc : t.source = none)
    (hmiss : host.pathExists t.target = false)
    (hkeep : keep_missing_target (x11_socket_of config) t.target = false) :
    is_missing_required (create_bwrap_argv host config) = true ∧
    result_exit_status (create_bwrap_argv host config) = some 1 := by
  have hmem' : t ∈ sort_mount_tasks st.mount_tasks :=
    (mem_insertion_sort by_target t st.mount_tasks).mpr hmem
  rcases emit_mount_tasks_fails host.pathExists (x11_socket_of config) _ t hmem'
    hbind hreq hmiss hkeep with ⟨p, hp⟩
  have hcreate : create_bwrap_argv host config =
      .error (.missingRequiredPath p) := by
    unfold create_bwrap_argv
    rw [hplan]
    simp only
    rw [hp]
  rw [hcreate]
  exact ⟨rfl, rfl⟩

/-- Witness for C4: on a host missing `/lib64`, compiling the base
configuration fails with the missing-required-path condition and exit
status 1. -/
theorem C4_witness :
    is_missing_required (create_bwrap_argv host_no_lib64 cfg_base) = true ∧
    result_exit_status (create_bwrap_argv host_no_lib64 cfg_base) = some 1 :=
  C4_missing_required host_no_lib64 cfg_base
    (build_plan_pure host_no_lib64 cfg_base none [])
    ⟨.BIND_RO, "/lib64", none, true⟩
    rfl (by decide) rfl rfl rfl (by decide) rfl

/-- Claim C3.  For every successful compile, the mount-operation section
of the argv is exactly the emission stage's output, and its operations are
non-decreasing by target path (the last element of each mount group) in
code-point lexicographic order. -/
theorem C3_mount_order (host : Host) (config : Config) (groups : List (List String))
    (h : create_bwrap_argv host config = .ok groups) :
    mount_groups_of host config = .ok (mount_section groups) ∧
    (mount_targets (mount_section groups)).Pairwise
      (fun a b => str_le a b = true) := by
  rcases create_ok_decomp host config groups h with ⟨st, mg, pv, hplan, hmg, hpv, hassm⟩
  have hshapes : ∀ g ∈ mg, g ≠ ["--clearenv"] :=
    fun g hg => (emit_mount_tasks_shapes _ _ _ mg hmg g hg).1
  have hsec : mount_section groups = mg := by
    rw [hassm]
    exact mount_section_assemble host config st mg pv hshapes
  constructor
  · rw [hsec]
    unfold mount_groups_of
    rw [hplan]
    simp only
    exact hmg
  · rw [hsec]
    exact List.Pairwise.sublist
      (emit_mount_tasks_targets_sublist _ _ _ mg hmg)
      (sort_mount_tasks_targets_sorted st.mount_tasks)

/-- Witness for C3: the mount section of a concrete successful compile is
the emission stage's output and is sorted by target. -/
theorem C3_witness :
    mount_groups_of host_all cfg_base =
      .ok (mount_section ((create_bwrap_argv host_all cfg_base).toOption.getD [])) ∧
    (mount_targets (mount_section
        ((create_bwrap_argv host_all cfg_base).toOption.getD []))).Pairwise
      (fun a b => str_le a b = true) :=
  C3_mount_order host_all cfg_base
    ((create_bwrap_argv host_all cfg_base).toOption.getD []) rfl

/-- Claim C7.  Compiling the same configuration against the same host
state (the same environment, filesystem-probe and realpath oracles,
pointwise) yields identical argv output, and the environment section of
the compiled argv lists its variables in sorted order. -/
theorem C7_deterministic (config : Config) (h1 h2 : Host)
    (hhome : h1.home = h2.home) (huid : h1.uid = h2.uid)
    (henv : ∀ v, h1.env v = h2.env v)
    (hpe : ∀ p, h1.pathExists p = h2.pathExists p)
    (hrp : ∀ p, h1.realpath p = h2.realpath p) :
    create_bwrap_argv h1 config = create_bwrap_argv h2 config ∧
    (setenv_names (env_section
        ((create_bwrap_argv h1 config).toOption.getD []))).Pairwise
      (fun a b => str_le a b = true) := by
  have hh : h1 = h2 := host_ext h1 h2 hhome huid henv hpe hrp
  subst hh
  refine ⟨rfl, ?_⟩
  cases hres : create_bwrap_argv h1 config with
  | error e => simp [env_section, setenv_names, Except.toOption]
  | ok groups =>
    rcases create_ok_decomp h1 config groups hres with ⟨st, mg, pv, hplan, hmg, hpv, hassm⟩
    have hshapes : ∀ g ∈ mg, g ≠ ["--clearenv"] :=
      fun g hg => (emit_mount_tasks_shapes _ _ _ mg hmg g hg).1
    have hus : st.unshare_args ≠ ["--clearenv"] := by
      rcases build_plan_ok_elim h1 config st hplan with ⟨dw, ex, -, -, hst⟩
      rw [hst, build_plan_pure_unshare]
      by_cases hn : config.network <;> simp [hn]
    show (setenv_names (env_section ((Except.ok groups :
      Except BwrapError (List (List String))).toOption.getD []))).Pairwise _
    have htop : (Except.ok groups :
        Except BwrapError (List (List String))).toOption.getD [] = groups := rfl
    rw [htop, hassm, env_section_assemble h1 config st mg pv hshapes hus]
    exact List.Pairwise.sublist (emit_env_names_sublist _ _)
      (sort_env_tasks_keys_sorted _)

/-- Witness for C7: two pointwise-equal host records (written differently)
give byte-identical compiles of the base configuration, whose environment
section is sorted. -/
theorem C7_witness :
    create_bwrap_argv host_all cfg_base = create_bwrap_argv host_all2 cfg_base ∧
    (setenv_names (env_section
        ((create_bwrap_argv host_all cfg_base).toOption.getD []))).Pairwise
      (fun a b => str_le a b = true) :=
  C7_deterministic cfg_base host_all host_all2 rfl rfl
    (fun _ => rfl) (fun _ => rfl) (fun _ => rfl)

end Sandwine
